import Mathlib

/-!
Verification of the brush codec and the editor mode state machine of
`Telegram/SourceFiles/editor/photo_editor.cpp`.

The codec (`Serialize` / `Deserialize`) writes a brush through a
`QDataStream` (version `Qt_5_3`, big-endian): a 4-byte signed integer
`qint32(brush.sizeRatio * kPrecision)` followed by the toolkit's standard
`QColor` serialization (one byte for the color spec, then five big-endian
16-bit words: alpha, red, green, blue, pad).  Bytes are modelled as natural
numbers and byte sequences as `List ℕ`; the C++ `float` field `sizeRatio`
is modelled as an exact rational, and the C++ float-to-integer cast as
truncation toward zero.

The orchestrator (`PhotoEditor`'s event handlers) is modelled as a step
function from an editor state and an incoming event to the successor state
together with the ordered list of outward effects the handler performs.
-/

namespace PhotoEditorSpec

/-- `constexpr auto kPrecision = 100000` from the source. -/
def kPrecision : ℕ := 100000

/-- A `QColor` as it appears on a `QDataStream`: the color spec tag plus
five 16-bit components (alpha, red, green, blue, pad).  Modelled from the
Qt toolkit's serialized form, which is external to the repository. -/
structure QColor where
  spec : ℕ
  alpha : ℕ
  red : ℕ
  green : ℕ
  blue : ℕ
  pad : ℕ
deriving DecidableEq

/-- The components a real `QColor` can hold: the spec tag fits one byte and
each channel fits an unsigned 16-bit word. -/
def QColor.valid (c : QColor) : Prop :=
  c.spec < 256 ∧ c.alpha < 65536 ∧ c.red < 65536 ∧ c.green < 65536 ∧
    c.blue < 65536 ∧ c.pad < 65536

instance (c : QColor) : Decidable c.valid := by
  unfold QColor.valid; infer_instance

/-- A default-constructed `QColor()`: invalid spec, opaque alpha, zero
channels. -/
def defaultColor : QColor := ⟨0, 65535, 0, 0, 0, 0⟩

/-- Modelled from the spec: the `Brush` record (its header is not part of
this excerpt) holds a stroke width ratio — a `float`, modelled as an exact
rational — and a color; a default `Brush` has ratio `0` and the default
color. -/
structure Brush where
  sizeRatio : ℚ := 0
  color : QColor := defaultColor
deriving DecidableEq

/-- `Brush()`, the fail-soft result of a failed deserialization. -/
def defaultBrush : Brush := {}

/-- Big-endian bytes of an unsigned 16-bit word, as `QDataStream` writes a
`qint16`. -/
def u16Bytes (n : ℕ) : List ℕ := [n / 256 % 256, n % 256]

/-- Big-endian bytes of an unsigned 32-bit word, as `QDataStream` writes a
`qint32`. -/
def u32Bytes (n : ℕ) : List ℕ :=
  [n / 2 ^ 24 % 256, n / 2 ^ 16 % 256, n / 2 ^ 8 % 256, n % 256]

/-- The C++ cast of a finite floating-point value to `qint32`: truncation
toward zero. -/
def ratTruncToInt (q : ℚ) : ℤ := if q < 0 then ⌈q⌉ else ⌊q⌋

/-- The unsigned 32-bit two's-complement image of a signed integer. -/
def int32ToUInt32 (i : ℤ) : ℕ := (i % 2 ^ 32).toNat

/-- Reading four big-endian bytes back as a signed 32-bit integer. -/
def uintToInt32 (n : ℕ) : ℤ := if n < 2 ^ 31 then (n : ℤ) else (n : ℤ) - 2 ^ 32

/-- `stream << brush.color`: the `QColor` serialization — spec byte, then
alpha, red, green, blue, pad as big-endian 16-bit words. -/
def serializeColor (c : QColor) : List ℕ :=
  c.spec % 256 ::
    (u16Bytes c.alpha ++ u16Bytes c.red ++ u16Bytes c.green ++
      u16Bytes c.blue ++ u16Bytes c.pad)

/-- `Serialize` from the source: write `qint32(brush.sizeRatio * kPrecision)`
then the color onto the stream. -/
def Serialize (brush : Brush) : List ℕ :=
  u32Bytes (int32ToUInt32 (ratTruncToInt (brush.sizeRatio * (kPrecision : ℚ))))
    ++ serializeColor brush.color

/-- `stream >> size` for a `qint32`: consume four bytes (big-endian); fewer
bytes put the stream into `ReadPastEnd`. -/
def readU32 : List ℕ → Option (ℕ × List ℕ)
  | b3 :: b2 :: b1 :: b0 :: rest =>
      Option.some (((b3 * 256 + b2) * 256 + b1) * 256 + b0, rest)
  | _ => Option.none

/-- A `qint32` read: four bytes, reinterpreted as a signed 32-bit value. -/
def readI32 (l : List ℕ) : Option (ℤ × List ℕ) :=
  match readU32 l with
  | Option.none => Option.none
  | Option.some (n, rest) => Option.some (uintToInt32 n, rest)

/-- `stream >> result.color`: consume the spec byte and five 16-bit words;
running out of bytes puts the stream into `ReadPastEnd`. -/
def readColor : List ℕ → Option (QColor × List ℕ)
  | sp :: a1 :: a0 :: r1 :: r0 :: g1 :: g0 :: b1 :: b0 :: p1 :: p0 :: rest =>
      Option.some
        (⟨sp, a1 * 256 + a0, r1 * 256 + r0, g1 * 256 + g0, b1 * 256 + b0,
          p1 * 256 + p0⟩, rest)
  | _ => Option.none

/-- `Deserialize` from the source: read the size and the color, set
`sizeRatio = size / float(kPrecision)`, and fall back to `Brush()` whenever
the stream status is not `Ok` (that is, whenever a read ran past the end of
the data). -/
def Deserialize (data : List ℕ) : Brush :=
  match readI32 data with
  | Option.none => defaultBrush
  | Option.some (size, rest) =>
      match readColor rest with
      | Option.none => defaultBrush
      | Option.some (c, _) =>
          { sizeRatio := (size : ℚ) / (kPrecision : ℚ), color := c }

/-! ## The orchestrator state machine -/

/-- `PhotoEditorMode::Mode`. -/
inductive Mode
  | Transform
  | Paint
deriving DecidableEq

/-- `PhotoEditorMode::Action`. -/
inductive Action
  | None
  | Save
  | Discard
deriving DecidableEq

/-- `PhotoEditorMode`: the current mode plus the pending action consumed by
the canvas on mode application. -/
structure PhotoEditorMode where
  mode : Mode
  action : Action
deriving DecidableEq

/-- Modelled from the spec: the fields of `PhotoModifications` the handlers
in this excerpt touch — the rotation angle (an `int`) and the flip flag. -/
structure PhotoModifications where
  angle : ℤ := 0
  flipped : Bool := false
deriving DecidableEq

/-- The mutable state owned by the orchestrator: its modifications, its
mode variable, and the persisted brush bytes in the application settings. -/
structure EditorState where
  modifications : PhotoModifications := {}
  mode : PhotoEditorMode := ⟨Mode.Transform, Action.None⟩
  settingsBrush : List ℕ := []
deriving DecidableEq

/-- The UI events the orchestrator subscribes to. -/
inductive Event
  | rotateRequested (angle : ℤ)
  | flipRequested
  | paintModeRequested
  | doneRequested
  | cancelRequested
  | saveBrushRequested (brush : Brush)

/-- The outward calls a handler performs, in order.  Mode application to the
child widgets (a consequence of assigning the mode variable) is not listed
as an effect. -/
inductive Effect
  | applyModifications (m : PhotoModifications)
  | applyBrush (b : Brush)
  | contentSave (m : PhotoModifications)
  | fireDone (m : PhotoModifications)
  | fireCancel
  | setPhotoEditorBrush (bytes : List ℕ)
  | saveSettingsDelayed
deriving DecidableEq

/-- One event handler dispatch, transcribed from the `rpl` subscriptions in
`PhotoEditor::PhotoEditor` (and `PhotoEditor::save`): the successor state,
paired with the handler's outward calls in program order. -/
def step (s : EditorState) (e : Event) : EditorState × List Effect :=
  match e with
  | Event.rotateRequested _ =>
      let a := s.modifications.angle + 90
      let a := if a ≥ 360 then a - 360 else a
      let m := { s.modifications with angle := a }
      ({ s with modifications := m }, [Effect.applyModifications m])
  | Event.flipRequested =>
      let m := { s.modifications with flipped := !s.modifications.flipped }
      ({ s with modifications := m }, [Effect.applyModifications m])
  | Event.paintModeRequested =>
      ({ s with mode := ⟨Mode.Paint, Action.None⟩ }, [])
  | Event.doneRequested =>
      match s.mode.mode with
      | Mode.Paint => ({ s with mode := ⟨Mode.Transform, Action.Save⟩ }, [])
      | Mode.Transform =>
          (s, [Effect.contentSave s.modifications, Effect.fireDone s.modifications])
  | Event.cancelRequested =>
      match s.mode.mode with
      | Mode.Paint => ({ s with mode := ⟨Mode.Transform, Action.Discard⟩ }, [])
      | Mode.Transform => (s, [Effect.fireCancel])
  | Event.saveBrushRequested b =>
      let serialized := Serialize b
      if s.settingsBrush ≠ serialized then
        ({ s with settingsBrush := serialized },
          [Effect.applyBrush b, Effect.setPhotoEditorBrush serialized,
            Effect.saveSettingsDelayed])
      else
        (s, [Effect.applyBrush b])

/-- The documented invariant on the rotation angle: a multiple of 90,
wrapped into `[0, 360)`. -/
def angleInvariant (s : EditorState) : Prop :=
  s.modifications.angle % 90 = 0 ∧ 0 ≤ s.modifications.angle ∧
    s.modifications.angle < 360

instance (s : EditorState) : Decidable (angleInvariant s) := by
  unfold angleInvariant; infer_instance


/-! ## Helper lemmas -/

theorem readColor_eq_none (l : List ℕ) (h : l.length < 11) :
    readColor l = Option.none := by
  rcases l with _ | ⟨a1, l⟩; · rfl
  rcases l with _ | ⟨a2, l⟩; · rfl
  rcases l with _ | ⟨a3, l⟩; · rfl
  rcases l with _ | ⟨a4, l⟩; · rfl
  rcases l with _ | ⟨a5, l⟩; · rfl
  rcases l with _ | ⟨a6, l⟩; · rfl
  rcases l with _ | ⟨a7, l⟩; · rfl
  rcases l with _ | ⟨a8, l⟩; · rfl
  rcases l with _ | ⟨a9, l⟩; · rfl
  rcases l with _ | ⟨a10, l⟩; · rfl
  rcases l with _ | ⟨a11, l⟩
  · rfl
  · exfalso; simp [List.length_cons] at h; omega

/-! ## Claims about the codec and the state machine -/

/-- Claim C3: `Deserialize` is a total function on arbitrary byte sequences,
and on every malformed input — one that fails structural parsing because it
is empty or too short to hold the 4-byte size and the 11-byte color — it
returns the default `Brush` (stroke width ratio `0`, default color) instead
of raising an error. -/
theorem deserialize_malformed_default (data : List ℕ) (h : data.length < 15) :
    Deserialize data = { sizeRatio := 0, color := defaultColor } := by
  rcases data with _ | ⟨b3, l⟩; · rfl
  rcases l with _ | ⟨b2, l⟩; · rfl
  rcases l with _ | ⟨b1, l⟩; · rfl
  rcases l with _ | ⟨b0, rest⟩; · rfl
  have hr : rest.length < 11 := by simp [List.length_cons] at h; omega
  simp [Deserialize, readI32, readU32, readColor_eq_none rest hr, defaultBrush]

/-- Claim C3, witness: the empty byte sequence decodes to the default
brush. -/
theorem deserialize_malformed_default_witness :
    ([] : List ℕ).length < 15
      ∧ Deserialize [] = { sizeRatio := 0, color := defaultColor } :=
  ⟨by decide, deserialize_malformed_default [] (by decide)⟩

/-- Claim C7: a `paintModeRequested` event, in any state (whatever the
current mode and pending action), sets the mode to `{Paint, None}` and
performs no other state change. -/
theorem paintMode_sets_paint_none (s : EditorState) :
    step s Event.paintModeRequested
      = ({ s with mode := ⟨Mode.Paint, Action.None⟩ }, []) := rfl

/-- Claim C5: a `doneRequested` event in `Paint` mode re-enters `Transform`
mode with pending action `Save`; in `Transform` mode it instead performs the
save directly — the canvas `save(modifications)` call happens exactly once,
followed by the `done` event carrying the same modifications snapshot, in
that order, with no state change. -/
theorem done_transitions :
    (∀ s : EditorState, s.mode.mode = Mode.Paint →
        step s Event.doneRequested
          = ({ s with mode := ⟨Mode.Transform, Action.Save⟩ }, []))
    ∧ ∀ s : EditorState, s.mode.mode = Mode.Transform →
        step s Event.doneRequested
          = (s, [Effect.contentSave s.modifications,
              Effect.fireDone s.modifications]) := by
  constructor <;> intro s h <;> simp [step, h]

/-- Claim C5, witness: the two `doneRequested` transitions at concrete
states. -/
theorem done_transitions_witness :
    (({ mode := ⟨Mode.Paint, Action.None⟩ } : EditorState).mode.mode
          = Mode.Paint
      ∧ step { mode := ⟨Mode.Paint, Action.None⟩ } Event.doneRequested
          = ({ ({ mode := ⟨Mode.Paint, Action.None⟩ } : EditorState) with
                mode := ⟨Mode.Transform, Action.Save⟩ }, []))
    ∧ (({ } : EditorState).mode.mode = Mode.Transform
      ∧ step { } Event.doneRequested
          = ({ }, [Effect.contentSave ({ } : EditorState).modifications,
              Effect.fireDone ({ } : EditorState).modifications])) :=
  ⟨⟨rfl, done_transitions.1 { mode := ⟨Mode.Paint, Action.None⟩ } rfl⟩,
    ⟨rfl, done_transitions.2 { } rfl⟩⟩

/-- Claim C6: a `cancelRequested` event in `Paint` mode re-enters
`Transform` mode with pending action `Discard`; in `Transform` mode it only
fires the `cancel` event — the state (mode, pending action and
modifications) is unchanged. -/
theorem cancel_transitions :
    (∀ s : EditorState, s.mode.mode = Mode.Paint →
        step s Event.cancelRequested
          = ({ s with mode := ⟨Mode.Transform, Action.Discard⟩ }, []))
    ∧ ∀ s : EditorState, s.mode.mode = Mode.Transform →
        step s Event.cancelRequested = (s, [Effect.fireCancel]) := by
  constructor <;> intro s h <;> simp [step, h]

/-- Claim C6, witness: the two `cancelRequested` transitions at concrete
states. -/
theorem cancel_transitions_witness :
    (({ mode := ⟨Mode.Paint, Action.Save⟩ } : EditorState).mode.mode
          = Mode.Paint
      ∧ step { mode := ⟨Mode.Paint, Action.Save⟩ } Event.cancelRequested
          = ({ ({ mode := ⟨Mode.Paint, Action.Save⟩ } : EditorState) with
                mode := ⟨Mode.Transform, Action.Discard⟩ }, []))
    ∧ (({ } : EditorState).mode.mode = Mode.Transform
      ∧ step { } Event.cancelRequested = ({ }, [Effect.fireCancel])) :=
  ⟨⟨rfl, cancel_transitions.1 { mode := ⟨Mode.Paint, Action.Save⟩ } rfl⟩,
    ⟨rfl, cancel_transitions.2 { } rfl⟩⟩

/-- Claim C9: the `rotateRequested` handler ignores the integer angle
payload of the event — two rotate events with different payloads but the
same starting state produce identical successor states and effects. -/
theorem rotate_payload_independent (s : EditorState) (a1 a2 : ℤ) :
    step s (Event.rotateRequested a1) = step s (Event.rotateRequested a2) :=
  rfl

/-- Claim C10: on every brush-save event the brush is forwarded to the
canvas through `applyBrush`, as the first outward call of the handler —
also when the persistence write and the deferred save are skipped because
the encoded bytes equal the persisted value. -/
theorem saveBrush_always_applies (s : EditorState) (b : Brush) :
    ((step s (Event.saveBrushRequested b)).2).head?
      = Option.some (Effect.applyBrush b) := by
  by_cases h : s.settingsBrush = Serialize b <;> simp [step, h]

/-- Claim C8: on a brush-save event the settings value is rewritten and a
deferred save is scheduled exactly when the encoded brush differs from the
persisted bytes; when they agree the handler leaves the state untouched and
only forwards the brush.  Consequently a second save of the same brush
never writes nor schedules again. -/
theorem saveBrush_persistence :
    (∀ (s : EditorState) (b : Brush), s.settingsBrush ≠ Serialize b →
        step s (Event.saveBrushRequested b)
          = ({ s with settingsBrush := Serialize b },
              [Effect.applyBrush b, Effect.setPhotoEditorBrush (Serialize b),
                Effect.saveSettingsDelayed]))
    ∧ (∀ (s : EditorState) (b : Brush), s.settingsBrush = Serialize b →
        step s (Event.saveBrushRequested b) = (s, [Effect.applyBrush b]))
    ∧ ∀ (s : EditorState) (b : Brush),
        step (step s (Event.saveBrushRequested b)).1
            (Event.saveBrushRequested b)
          = ((step s (Event.saveBrushRequested b)).1,
              [Effect.applyBrush b]) := by
  refine ⟨fun s b h => by simp [step, h], fun s b h => by simp [step, h],
    fun s b => ?_⟩
  by_cases h : s.settingsBrush = Serialize b <;> simp [step, h]

/-- Claim C8, witness: starting from empty persisted bytes, saving the
default brush writes and schedules; saving it again does not. -/
theorem saveBrush_persistence_witness :
    (({ } : EditorState).settingsBrush ≠ Serialize defaultBrush
      ∧ step { } (Event.saveBrushRequested defaultBrush)
          = ({ ({ } : EditorState) with
                settingsBrush := Serialize defaultBrush },
              [Effect.applyBrush defaultBrush,
                Effect.setPhotoEditorBrush (Serialize defaultBrush),
                Effect.saveSettingsDelayed]))
    ∧ (({ settingsBrush := Serialize defaultBrush } : EditorState).settingsBrush
          = Serialize defaultBrush
      ∧ step { settingsBrush := Serialize defaultBrush }
            (Event.saveBrushRequested defaultBrush)
          = ({ settingsBrush := Serialize defaultBrush },
              [Effect.applyBrush defaultBrush])) :=
  ⟨⟨Ne.symm (List.cons_ne_nil _ _),
      saveBrush_persistence.1 { } defaultBrush
        (Ne.symm (List.cons_ne_nil _ _))⟩,
    ⟨rfl, saveBrush_persistence.2.1 { settingsBrush := Serialize defaultBrush }
      defaultBrush rfl⟩⟩


/-- Claim C4: from any state whose rotation angle is a multiple of 90 in
`[0, 360)`, a `rotateRequested` event (in any mode) sets the angle to
`(angle + 90) mod 360` and leaves the mode unchanged; every event preserves
the angle invariant; and four rotations from angle `0` end at angle `0`. -/
theorem rotate_adds_ninety (s : EditorState) (a : ℤ) (h : angleInvariant s) :
    ((step s (Event.rotateRequested a)).1.modifications.angle
        = (s.modifications.angle + 90) % 360
      ∧ (step s (Event.rotateRequested a)).1.mode = s.mode)
    ∧ (∀ e : Event, angleInvariant (step s e).1)
    ∧ (∀ s0 : EditorState, s0.modifications.angle = 0 →
        (step (step (step (step s0 (Event.rotateRequested a)).1
            (Event.rotateRequested a)).1 (Event.rotateRequested a)).1
          (Event.rotateRequested a)).1.modifications.angle = 0) := by
  obtain ⟨h90, hlo, hhi⟩ := h
  refine ⟨⟨?_, rfl⟩, ?_, ?_⟩
  · simp only [step]
    split <;> omega
  · intro e
    cases e with
    | rotateRequested a' =>
        simp only [step, angleInvariant]
        split <;> constructor <;> omega
    | flipRequested => exact ⟨h90, hlo, hhi⟩
    | paintModeRequested => exact ⟨h90, hlo, hhi⟩
    | doneRequested =>
        rcases hm : s.mode.mode with _ | _ <;>
          simp only [step, angleInvariant, hm] <;> exact ⟨h90, hlo, hhi⟩
    | cancelRequested =>
        rcases hm : s.mode.mode with _ | _ <;>
          simp only [step, angleInvariant, hm] <;> exact ⟨h90, hlo, hhi⟩
    | saveBrushRequested b =>
        simp only [step, angleInvariant]
        split <;> exact ⟨h90, hlo, hhi⟩
  · intro s0 h0
    simp only [step, h0]
    norm_num

/-- Claim C4, witness: the rotation properties at the initial state (angle
`0`, transform mode) with an arbitrary payload of `42`. -/
theorem rotate_adds_ninety_witness :
    angleInvariant { }
    ∧ (((step { } (Event.rotateRequested 42)).1.modifications.angle
          = (({ } : EditorState).modifications.angle + 90) % 360
        ∧ (step { } (Event.rotateRequested 42)).1.mode
            = ({ } : EditorState).mode)
      ∧ (∀ e : Event, angleInvariant (step { } e).1)
      ∧ (∀ s0 : EditorState, s0.modifications.angle = 0 →
          (step (step (step (step s0 (Event.rotateRequested 42)).1
              (Event.rotateRequested 42)).1 (Event.rotateRequested 42)).1
            (Event.rotateRequested 42)).1.modifications.angle = 0)) :=
  ⟨by decide, rotate_adds_ninety { } 42 (by decide)⟩


theorem deserialize_serialize_bytes (k : ℕ) (c : QColor) (hk : k < 2 ^ 31)
    (hc : c.valid) :
    Deserialize (u32Bytes k ++ serializeColor c)
      = { sizeRatio := (k : ℚ) / (kPrecision : ℚ), color := c } := by
  obtain ⟨h1, h2, h3, h4, h5, h6⟩ := hc
  have hv : ((k / 2 ^ 24 % 256 * 256 + k / 2 ^ 16 % 256) * 256
      + k / 2 ^ 8 % 256) * 256 + k % 256 = k := by omega
  have e0 : c.spec % 256 = c.spec := Nat.mod_eq_of_lt h1
  have e1 : c.alpha / 256 % 256 * 256 + c.alpha % 256 = c.alpha := by omega
  have e2 : c.red / 256 % 256 * 256 + c.red % 256 = c.red := by omega
  have e3 : c.green / 256 % 256 * 256 + c.green % 256 = c.green := by omega
  have e4 : c.blue / 256 % 256 * 256 + c.blue % 256 = c.blue := by omega
  have e5 : c.pad / 256 % 256 * 256 + c.pad % 256 = c.pad := by omega
  simp only [u32Bytes, serializeColor, u16Bytes, List.cons_append,
    List.nil_append, Deserialize, readI32, readU32, readColor, hv, e0, e1,
    e2, e3, e4, e5, uintToInt32, if_pos hk]
  norm_num

/-- Claim C2: for every brush whose stroke width ratio is a nonnegative
multiple of `1e-5` below `10` (that is, `k / 100000` with `k < 1000000`)
and every valid color, decoding the encoding reproduces the ratio within
`1e-5` absolute error (here: exactly) and the color bit-exactly. -/
theorem serialize_roundtrip (k : ℕ) (c : QColor) (hk : k < 1000000)
    (hc : c.valid) :
    |(Deserialize (Serialize { sizeRatio := (k : ℚ) / 100000, color := c })).sizeRatio
        - (k : ℚ) / 100000| ≤ 1 / 100000
    ∧ (Deserialize (Serialize { sizeRatio := (k : ℚ) / 100000, color := c })).color
        = c := by
  have hq : ((k : ℚ) / 100000) * ((kPrecision : ℕ) : ℚ) = (k : ℚ) := by
    rw [kPrecision]
    push_cast
    field_simp
  have ht : ratTruncToInt (((k : ℚ) / 100000) * ((kPrecision : ℕ) : ℚ))
      = (k : ℤ) := by
    rw [hq, ratTruncToInt, if_neg (not_lt.mpr (by positivity)),
      Int.floor_natCast]
  have hu : int32ToUInt32 (k : ℤ) = k := by
    unfold int32ToUInt32
    omega
  have hs : Serialize { sizeRatio := (k : ℚ) / 100000, color := c }
      = u32Bytes k ++ serializeColor c := by
    simp only [Serialize, ht, hu]
  rw [hs, deserialize_serialize_bytes k c (by omega) hc]
  refine ⟨?_, rfl⟩
  simp only [kPrecision]
  push_cast
  rw [sub_self, abs_zero]
  norm_num

/-- Claim C2, witness: the round trip at ratio `7e-5` with a concrete RGB
color. -/
theorem serialize_roundtrip_witness :
    (7 < 1000000 ∧ (⟨1, 65535, 0, 0, 255, 0⟩ : QColor).valid)
    ∧ (|(Deserialize (Serialize
          { sizeRatio := ((7 : ℕ) : ℚ) / 100000,
            color := ⟨1, 65535, 0, 0, 255, 0⟩ })).sizeRatio
            - ((7 : ℕ) : ℚ) / 100000| ≤ 1 / 100000
      ∧ (Deserialize (Serialize
          { sizeRatio := ((7 : ℕ) : ℚ) / 100000,
            color := ⟨1, 65535, 0, 0, 255, 0⟩ })).color
          = ⟨1, 65535, 0, 0, 255, 0⟩) :=
  ⟨⟨by norm_num, by decide⟩,
    serialize_roundtrip 7 ⟨1, 65535, 0, 0, 255, 0⟩ (by norm_num) (by decide)⟩

/-- Claim C1, amended: for every in-range brush, `Serialize` is a fixed
layout whose first four bytes are the big-endian two's-complement image of
the **truncation toward zero** of `sizeRatio * 100000` (the C++ `qint32`
cast truncates; it does not round to nearest), followed by the standard
color serialization; as a function, it is deterministic. -/
theorem serialize_layout (b : Brush)
    (h : -(2 ^ 31) ≤ ratTruncToInt (b.sizeRatio * (kPrecision : ℚ))
      ∧ ratTruncToInt (b.sizeRatio * (kPrecision : ℚ)) < 2 ^ 31) :
    (Serialize b).take 4
        = u32Bytes (int32ToUInt32 (ratTruncToInt (b.sizeRatio * (kPrecision : ℚ))))
      ∧ (Serialize b).drop 4 = serializeColor b.color :=
  ⟨rfl, rfl⟩

/-- Claim C1, witness: the layout at the default brush. -/
theorem serialize_layout_witness :
    (-(2 ^ 31) ≤ ratTruncToInt (defaultBrush.sizeRatio * (kPrecision : ℚ))
      ∧ ratTruncToInt (defaultBrush.sizeRatio * (kPrecision : ℚ)) < 2 ^ 31)
    ∧ ((Serialize defaultBrush).take 4
        = u32Bytes (int32ToUInt32
            (ratTruncToInt (defaultBrush.sizeRatio * (kPrecision : ℚ))))
      ∧ (Serialize defaultBrush).drop 4 = serializeColor defaultBrush.color) :=
  ⟨by norm_num [ratTruncToInt, defaultBrush],
    serialize_layout defaultBrush (by norm_num [ratTruncToInt, defaultBrush])⟩

/-- Claim C1, counterexample: at stroke width ratio `1.5e-5` — finite and
in range — the first four serialized bytes encode `1` (truncation of
`1.5`), not `round(1.5) = 2` as the claim states. -/
theorem serialize_round_counterexample :
    (Serialize { sizeRatio := 3 / 200000, color := defaultColor }).take 4
      ≠ u32Bytes (int32ToUInt32 (round
          (({ sizeRatio := 3 / 200000, color := defaultColor } : Brush).sizeRatio
            * (kPrecision : ℚ)))) := by
  have hr : round
      (({ sizeRatio := 3 / 200000, color := defaultColor } : Brush).sizeRatio
        * (kPrecision : ℚ)) = 2 := by
    norm_num [round_eq, kPrecision]
  have ht : ratTruncToInt
      (({ sizeRatio := 3 / 200000, color := defaultColor } : Brush).sizeRatio
        * (kPrecision : ℚ)) = 1 := by
    norm_num [ratTruncToInt, kPrecision]
  rw [hr]
  simp only [Serialize, ht]
  decide

end PhotoEditorSpec
